import Mathlib

/-!
Shallow embedding of the Live-Chat-Application server (`part_000`, the
mongoose models `Room`/`Message`/`User`) in Lean 4.

JavaScript payload values that can be a string or `undefined` are modelled
by `JsVal`; calling `.trim()` on `undefined`, or destructuring a missing
payload object, is modelled by `Except.error JsError.typeError`.  Mongoose
query semantics are reproduced: `findOne({name})` with an `undefined` value
strips the field and returns the first document, `findById(undefined)`
matches nothing, `find({room})` with `undefined` returns every document.
The persisted collections are lists in insertion order; `.sort('name')` /
`.sort('time')` are stable ascending sorts, matching MongoDB's sort on
the queried field.  The `const { Server } = require('socket.io')` import
pins socket.io v3+, whose `Socket` has no public `leaveAll` (removed in
v3), so the `joinRoom` handler's `socket.leaveAll()` call raises a
`TypeError` before any join or history emit.
-/

namespace LiveChat

/-- A JavaScript value that is either `undefined` or a string. -/
inductive JsVal where
  | undef
  | str (s : String)
deriving DecidableEq, Repr

/-- JavaScript truthiness for `JsVal`: `undefined` and `""` are falsy. -/
def JsVal.truthy : JsVal → Bool
  | .undef => false
  | .str s => s ≠ ""

/-- The only runtime error our handlers can raise (`TypeError`). -/
inductive JsError where
  | typeError
deriving DecidableEq, Repr

/-- `roomSchema`: `{ name (unique, required), createdBy (required) }`.
`createdAt` is never read by any handler and is omitted. -/
structure Room where
  name : String
  createdBy : String
deriving DecidableEq, Repr

/-- `messageSchema`: `{ room, user, avatar, text, time, seenBy }` with
`_id` modelled as a `String` and `time` as a `Nat` tick. -/
structure Message where
  id : String
  room : String
  user : String
  avatar : Option String
  text : String
  time : Nat
  seenBy : List String
deriving DecidableEq, Repr

/-- A live socket.io connection: its id, the attached user profile
(`socket.user`), and the set of rooms it has joined. -/
structure Socket where
  sid : Nat
  username : String
  avatar : Option String
  rooms : List JsVal
deriving DecidableEq, Repr

/-- `userSchema`: `{ username (unique), password, avatar }`; `password`
is never read by the socket layer and is omitted. -/
structure User where
  id : String
  username : String
  avatar : Option String
deriving DecidableEq, Repr

/-- The server's observable state: the two persisted collections plus
the in-memory connection set, and counters for fresh ids / timestamps. -/
structure ServerState where
  rooms : List Room
  messages : List Message
  sockets : List Socket
  nextId : Nat
  nextTime : Nat
deriving DecidableEq, Repr

/-- Outbound wire events, as in the source's `emit` calls. -/
inductive OutEvent where
  | roomList (rooms : List Room)
  | history (msgs : List Message)
  | message (m : Message)
  | messageDeleted (id : String)
  | typing (username : String)
  | stopTyping
  | seenUpdate (id : String) (seenBy : List String)
deriving DecidableEq, Repr

/-- A broadcast instruction together with its delivery scope:
`socket.emit`, `io.to(room).emit`, `socket.to(room).emit`, `io.emit`. -/
inductive Emit where
  | toSocket (sid : Nat) (ev : OutEvent)
  | toRoom (room : String) (ev : OutEvent)
  | toRoomNotSender (room : String) (senderSid : Nat) (ev : OutEvent)
  | toAll (ev : OutEvent)
deriving DecidableEq, Repr

/-- Whether socket `s` receives broadcast `e`, given its current room
memberships (socket.io adapter semantics). -/
def Socket.receives (s : Socket) : Emit → Bool
  | .toSocket sid _ => s.sid == sid
  | .toRoom room _ => s.rooms.contains (JsVal.str room)
  | .toRoomNotSender room sender _ =>
      s.sid != sender && s.rooms.contains (JsVal.str room)
  | .toAll _ => true

/-- Payload of `chatMessage`: `{ room, text }`. -/
structure ChatPayload where
  room : JsVal
  text : JsVal
deriving DecidableEq, Repr

/-- Payload of `seen`: `{ messageId }`. -/
structure SeenPayload where
  messageId : JsVal
deriving DecidableEq, Repr

/-- Inbound protocol events.  `chatMessage` and `seen` destructure an
object payload, so a wholly missing payload is `none`. -/
inductive InEvent where
  | newRoom (name : JsVal)
  | deleteRoom (name : JsVal)
  | joinRoom (room : JsVal)
  | chatMessage (payload : Option ChatPayload)
  | deleteMessage (messageId : JsVal)
  | typing (room : JsVal)
  | stopTyping (room : JsVal)
  | seen (payload : Option SeenPayload)
deriving DecidableEq, Repr

/-- JavaScript `String.prototype.trim`, modelled structurally over the
character list: drop leading and trailing whitespace. -/
def jsTrim (s : String) : String :=
  ⟨((s.data.dropWhile Char.isWhitespace).reverse.dropWhile Char.isWhitespace).reverse⟩

/-- Lexicographic order on code-point sequences, as MongoDB's binary
collation compares strings. -/
def lexLe : List Char → List Char → Bool
  | [], _ => true
  | _ :: _, [] => false
  | a :: as, b :: bs =>
    if a.toNat < b.toNat then true
    else if b.toNat < a.toNat then false
    else lexLe as bs

/-- String comparison used by `.sort('name')`. -/
def strLe (a b : String) : Bool := lexLe a.data b.data

/-- `Room.find().sort('name')`: stable ascending sort on `name`. -/
def sortRooms (rs : List Room) : List Room :=
  List.insertionSort (fun a b => strLe a.name b.name = true) rs

/-- `Message.find(...).sort('time')`: stable ascending sort on `time`. -/
def sortByTime (msgs : List Message) : List Message :=
  List.insertionSort (fun a b => a.time ≤ b.time) msgs

/-- `Message.findById(v)`: a string id matches the first document with
that `_id`; `findById(undefined)` behaves as `findOne({_id: null})` and
matches nothing. -/
def findMessageById (msgs : List Message) : JsVal → Option Message
  | .undef => none
  | .str s => msgs.find? (fun m => m.id == s)

/-- `Room.findOne({name: v})`: a string matches the first room of that
name; an `undefined` value is stripped by mongoose, so the query matches
every document and returns the first. -/
def findRoomByName (rooms : List Room) : JsVal → Option Room
  | .undef => rooms.head?
  | .str s => rooms.find? (fun r => r.name == s)

/-- `Message.find({room: v})`: string value filters on `room`;
`undefined` is stripped, matching every message. -/
def msgsInRoom (msgs : List Message) : JsVal → List Message
  | .undef => msgs
  | .str r => msgs.filter (fun m => m.room == r)

/-- The message document built by `Message.create` in `chatMessage`:
note `text` is stored exactly as received, untrimmed. -/
def mkMessage (st : ServerState) (sock : Socket) (room text : String) : Message :=
  { id := toString st.nextId, room := room, user := sock.username,
    avatar := sock.avatar, text := text, time := st.nextTime, seenBy := [] }

/-- One inbound protocol event processed by the handlers registered in
`io.on('connection')`, lines 144-202 of the source.  Returns the new
server state and the list of emits, or a raised `TypeError`. -/
def handleEvent (st : ServerState) (sid : Nat) (ev : InEvent) :
    Except JsError (ServerState × List Emit) :=
  match st.sockets.find? (fun s => s.sid == sid) with
  | none => .ok (st, [])
  | some sock =>
    match ev with
    | .newRoom name =>
      -- if (name?.trim() && !(await Room.exists({ name }))) { Room.create({ name, createdBy }); io.emit('roomList', ...) }
      match name with
      | .undef => .ok (st, [])
      | .str n =>
        if jsTrim n != "" && !(st.rooms.any (fun r => r.name == n)) then
          let st' := { st with rooms := st.rooms ++ [⟨n, sock.username⟩] }
          .ok (st', [.toAll (.roomList (sortRooms st'.rooms))])
        else .ok (st, [])
    | .deleteRoom name =>
      -- const room = await Room.findOne({ name }); if (room && room.createdBy === socket.user.username) { room.deleteOne(); io.emit('roomList', ...) }
      match findRoomByName st.rooms name with
      | some room =>
        if room.createdBy == sock.username then
          let st' := { st with rooms := st.rooms.eraseP (fun r => r == room) }
          .ok (st', [.toAll (.roomList (sortRooms st'.rooms))])
        else .ok (st, [])
      | none => .ok (st, [])
    | .joinRoom _ =>
      -- socket.leaveAll(); socket.join(room); ... -- the `const { Server } =`
      -- import pins socket.io v3+, whose Socket has no public leaveAll
      -- (removed in v3), so line 160 throws before any join or history emit
      .error .typeError
    | .chatMessage payload =>
      match payload with
      | none => .error .typeError          -- destructuring `{ room, text }` of undefined
      | some p =>
        match p.room with
        | .undef => .ok (st, [])           -- `!room` short-circuits before text.trim()
        | .str r =>
          if r == "" then .ok (st, [])     -- empty string is falsy
          else
            match p.text with
            | .undef => .error .typeError  -- `text.trim()` on undefined throws
            | .str t =>
              if jsTrim t == "" then .ok (st, [])
              else
                let m := mkMessage st sock r t
                let st' := { st with
                  messages := st.messages ++ [m]
                  nextId := st.nextId + 1
                  nextTime := st.nextTime + 1 }
                .ok (st', [.toRoom r (.message m)])
    | .deleteMessage messageId =>
      -- const m = await Message.findById(messageId); if (m && m.user === socket.user.username) { Message.deleteOne({_id}); io.to(m.room).emit('messageDeleted', messageId) }
      match findMessageById st.messages messageId with
      | some m =>
        if m.user == sock.username then
          let st' := { st with messages := st.messages.eraseP (fun x => x.id == m.id) }
          .ok (st', [.toRoom m.room (.messageDeleted m.id)])
        else .ok (st, [])
      | none => .ok (st, [])
    | .typing room =>
      -- if (!room) return; socket.to(room).emit('typing', socket.user.username)
      match room with
      | .undef => .ok (st, [])
      | .str r =>
        if r == "" then .ok (st, [])
        else .ok (st, [.toRoomNotSender r sid (.typing sock.username)])
    | .stopTyping room =>
      match room with
      | .undef => .ok (st, [])
      | .str r =>
        if r == "" then .ok (st, [])
        else .ok (st, [.toRoomNotSender r sid .stopTyping])
    | .seen payload =>
      match payload with
      | none => .error .typeError          -- destructuring `{ messageId }` of undefined
      | some p =>
        match findMessageById st.messages p.messageId with
        | some m =>
          if m.seenBy.contains sock.username then .ok (st, [])
          else
            let m' := { m with seenBy := m.seenBy ++ [sock.username] }
            let st' := { st with
              messages := st.messages.map (fun x => if x.id == m.id then m' else x) }
            .ok (st', [.toRoom m.room (.seenUpdate m.id m'.seenBy)])
        | none => .ok (st, [])

/-- Outcome of `io.on('connection')` before any handler is registered. -/
inductive ConnResult where
  | terminated
  | accepted (st : ServerState) (emits : List Emit)
deriving DecidableEq, Repr

/-- The connection gate, lines 129-141: resolve
`socket.request.session.passport?.user`; a falsy uid disconnects the
socket with nothing sent; otherwise attach the user profile, register
the socket with no memberships, and emit the initial room list to it
(`socket.user.username` on a null `findById` result throws). -/
def handleConnection (st : ServerState) (users : List User) (sid : Nat)
    (uid : JsVal) : Except JsError ConnResult :=
  match uid with
  | .undef => .ok .terminated
  | .str u =>
    if u == "" then .ok .terminated
    else
      match users.find? (fun x => x.id == u) with
      | none => .error .typeError
      | some user =>
        let sock : Socket := { sid := sid
                               username := user.username
                               avatar := user.avatar
                               rooms := [] }
        let st' := { st with sockets := st.sockets ++ [sock] }
        .ok (.accepted st' [.toSocket sid (.roomList (sortRooms st.rooms))])

/-- The authenticated index route, lines 113-120: list rooms sorted by
name; if none exist, create `"lobby"` attributed to the requesting user
and render that singleton list. -/
def handleIndex (st : ServerState) (username : String) :
    ServerState × List Room :=
  let rooms := sortRooms st.rooms
  if rooms.isEmpty then
    let lobby : Room := { name := "lobby", createdBy := username }
    ({ st with rooms := st.rooms ++ [lobby] }, [lobby])
  else (st, rooms)

/-- The server state after a successful `seen` by user `u` on message
`m`: that message's stored `seenBy` gains `u` at the end (`m.save()`). -/
def seenState (st : ServerState) (m : Message) (u : String) : ServerState :=
  { st with messages := st.messages.map (fun x => if x.id == m.id then { m with seenBy := m.seenBy ++ [u] } else x) }

/-! ### Concrete states for witnesses and counterexamples -/

/-- A connected socket for the user `"alice"`. -/
def aliceSock : Socket := ⟨0, "alice", none, []⟩

/-- A state with one connected socket and empty collections. -/
def baseState : ServerState := ⟨[], [], [aliceSock], 0, 0⟩

/-- A state holding one room `"a"` created by `"bob"`, with alice connected. -/
def bobRoomState : ServerState := ⟨[⟨"a", "bob"⟩], [], [aliceSock], 0, 0⟩

/-- A state holding one message from `"bob"` in room `"g"`, alice connected. -/
def bobMsgState : ServerState :=
  ⟨[], [⟨"1", "g", "bob", none, "hi", 0, []⟩], [aliceSock], 2, 2⟩

/-- A socket for `"alice"` that is a member of room `"g"`. -/
def aliceInG : Socket := ⟨0, "alice", none, [.str "g"]⟩

/-- A socket for `"bob"` that is a member of room `"g"`. -/
def bobInG : Socket := ⟨1, "bob", none, [.str "g"]⟩

/-- A state with alice and bob both members of room `"g"`. -/
def typingState : ServerState := ⟨[], [], [aliceInG, bobInG], 0, 0⟩

/-- A state with room `"g"` created by alice and an old message of bob
persisted in `"g"`; alice connected. -/
def frameState : ServerState :=
  ⟨[⟨"g", "alice"⟩], [⟨"1", "g", "bob", none, "old", 0, []⟩], [aliceSock], 2, 2⟩

/-! ### Helper lemmas -/

/-- `find?` commutes with a `map` whose function preserves the predicate. -/
theorem find?_map_pred_inv {α : Type} (g : α → α) (p : α → Bool) (l : List α)
    (hg : ∀ x, p (g x) = p x) :
    (l.map g).find? p = (l.find? p).map g := by
  rw [List.find?_map g l]
  have : p ∘ g = p := funext hg
  rw [this]

/-- Finding by id after updating the found message in place: the update
preserves ids, so the same query returns the updated document. -/
theorem findMessageById_update (msgs : List Message) (i : String) (m m' : Message)
    (hm : msgs.find? (fun x => x.id == i) = some m) (hid : m'.id = m.id) :
    (msgs.map (fun x => if x.id == m.id then m' else x)).find?
      (fun x => x.id == i) = some m' := by
  rw [find?_map_pred_inv]
  · rw [hm]
    simp
  · intro x
    by_cases hb : (x.id == m.id) = true
    · have hx : x.id = m.id := beq_iff_eq.mp hb
      simp [hb, hid, hx]
    · simp [hb]

/-- A `seen` whose target message is absent, or already records the
viewer, changes nothing and emits nothing. -/
theorem seen_already_noop (st : ServerState) (sid : Nat) (sock : Socket)
    (v : JsVal)
    (hs : st.sockets.find? (fun s => s.sid == sid) = some sock)
    (h : ∀ m, findMessageById st.messages v = some m → sock.username ∈ m.seenBy) :
    handleEvent st sid (.seen (some ⟨v⟩)) = .ok (st, []) := by
  cases hfm : findMessageById st.messages v with
  | none => simp [handleEvent, hs, hfm]
  | some m =>
    have := h m hfm
    simp [handleEvent, hs, hfm, this]

/-! ### Claims -/

/-- C1 (code bug).  The claim's leave-all-then-join behaviour is the
evident intent of lines 159-164, but the `const { Server } =
require('socket.io')` import pins socket.io v3+, whose `Socket` has no
public `leaveAll` (removed in v3): every `joinRoom` throws a
`TypeError` at `socket.leaveAll()`, so the handler never changes any
membership, never returns, and never emits `history`. -/
theorem joinRoom_throws (st : ServerState) (sid : Nat) (v : JsVal)
    (hs : (st.sockets.find? (fun s => s.sid == sid)).isSome) :
    handleEvent st sid (.joinRoom v) = .error .typeError := by
  obtain ⟨sock, hfind⟩ := Option.isSome_iff_exists.mp hs
  simp [handleEvent, hfind]

/-- C3. A connection whose session carries no authenticated user id
(`passport?.user` falsy: absent or empty) is terminated immediately:
no socket is registered, nothing is emitted (in particular no
`roomList`), and no handler is installed. -/
theorem unauthenticated_connection_terminated (st : ServerState)
    (users : List User) (sid : Nat) :
    handleConnection st users sid .undef = .ok .terminated ∧
    handleConnection st users sid (.str "") = .ok .terminated := by
  constructor
  · rfl
  · simp [handleConnection]

/-- C1 witness: a connected socket issuing `joinRoom("A")` hits the
`TypeError` at the concrete base state. -/
theorem joinRoom_throws_witness :
    handleEvent baseState 0 (.joinRoom (.str "A")) = .error .typeError :=
  joinRoom_throws baseState 0 (.str "A") (by decide)

/-- C2 counterexample: a `chatMessage` whose `text` is missing while
`room` is present raises a `TypeError` (from `text.trim()` on
`undefined`) instead of being a silent no-op. -/
theorem chatMessage_missing_text_raises :
    handleEvent baseState 0 (.chatMessage (some ⟨.str "general", .undef⟩)) =
      .error .typeError := rfl

/-- C2 (amended). For every inbound event whose precondition fails on a
*well-formed* payload, the handler changes no state and emits nothing:
`newRoom` with blank or existing name, `deleteRoom` by a non-creator or
of a missing room, `chatMessage` with falsy room or blank text,
`deleteMessage` of a missing or foreign message, `typing`/`stopTyping`
with a falsy room, `seen` of a missing or already-seen message.  (A
`chatMessage` or `seen` whose payload object itself is missing, or a
`chatMessage` whose `text` field is missing, instead raises a
`TypeError`.) -/
theorem failing_precondition_silent_noop (st : ServerState) (sid : Nat)
    (sock : Socket)
    (hs : st.sockets.find? (fun s => s.sid == sid) = some sock) :
    (∀ n : String, (jsTrim n = "" ∨ st.rooms.any (fun r => r.name == n) = true) →
      handleEvent st sid (.newRoom (.str n)) = .ok (st, [])) ∧
    (handleEvent st sid (.newRoom .undef) = .ok (st, [])) ∧
    (∀ n : JsVal, (∀ r, findRoomByName st.rooms n = some r →
        r.createdBy ≠ sock.username) →
      handleEvent st sid (.deleteRoom n) = .ok (st, [])) ∧
    (∀ t : JsVal, handleEvent st sid (.chatMessage (some ⟨.undef, t⟩)) = .ok (st, [])) ∧
    (∀ t : JsVal, handleEvent st sid (.chatMessage (some ⟨.str "", t⟩)) = .ok (st, [])) ∧
    (∀ r t : String, jsTrim t = "" →
      handleEvent st sid (.chatMessage (some ⟨.str r, .str t⟩)) = .ok (st, [])) ∧
    (∀ i : JsVal, (∀ m, findMessageById st.messages i = some m →
        m.user ≠ sock.username) →
      handleEvent st sid (.deleteMessage i) = .ok (st, [])) ∧
    (handleEvent st sid (.typing (.str "")) = .ok (st, [])) ∧
    (handleEvent st sid (.typing .undef) = .ok (st, [])) ∧
    (handleEvent st sid (.stopTyping (.str "")) = .ok (st, [])) ∧
    (handleEvent st sid (.stopTyping .undef) = .ok (st, [])) ∧
    (∀ i : JsVal, (∀ m, findMessageById st.messages i = some m →
        m.seenBy.contains sock.username = true) →
      handleEvent st sid (.seen (some ⟨i⟩)) = .ok (st, [])) := by
  refine ⟨?_, ?_, ?_, ?_, ?_, ?_, ?_, ?_, ?_, ?_, ?_, ?_⟩
  · intro n hn
    rcases hn with hn | hn <;> simp [handleEvent, hs, hn]
  · simp [handleEvent, hs]
  · intro n hr
    cases hfr : findRoomByName st.rooms n with
    | none => simp [handleEvent, hs, hfr]
    | some r =>
      have := hr r hfr
      simp [handleEvent, hs, hfr, this]
  · intro t
    simp [handleEvent, hs]
  · intro t
    simp [handleEvent, hs]
  · intro r t ht
    by_cases hr : r = "" <;> simp [handleEvent, hs, hr, ht]
  · intro i hm
    cases hfm : findMessageById st.messages i with
    | none => simp [handleEvent, hs, hfm]
    | some m =>
      have := hm m hfm
      simp [handleEvent, hs, hfm, this]
  · simp [handleEvent, hs]
  · simp [handleEvent, hs]
  · simp [handleEvent, hs]
  · simp [handleEvent, hs]
  · intro i hm
    cases hfm : findMessageById st.messages i with
    | none => simp [handleEvent, hs, hfm]
    | some m =>
      have hc := hm m hfm
      have hmem : sock.username ∈ m.seenBy := by simpa using hc
      simp [handleEvent, hs, hfm, hmem]

/-- C2 (amended) witness: `newRoom` with a whitespace-only name at the
concrete base state is a silent no-op. -/
theorem failing_precondition_silent_noop_witness :
    handleEvent baseState 0 (.newRoom (.str " ")) = .ok (baseState, []) :=
  (failing_precondition_silent_noop baseState 0 aliceSock (by decide)).1 " "
    (Or.inl (by decide))

/-- C4 counterexample: with room `"a"` already present, `newRoom(" a ")`
succeeds and stores the *untrimmed* name `" a "`, leaving two persisted
rooms whose names are equal after trimming. -/
theorem newRoom_untrimmed_counterexample :
    handleEvent bobRoomState 0 (.newRoom (.str " a ")) =
      .ok ({ bobRoomState with rooms := [⟨"a", "bob"⟩, ⟨" a ", "alice"⟩] },
           [.toAll (.roomList [⟨" a ", "alice"⟩, ⟨"a", "bob"⟩])]) ∧
    jsTrim " a " = "a" ∧ (" a " : String) ≠ "a" ∧
    jsTrim "a" = jsTrim " a " := by
  refine ⟨rfl, rfl, by decide, rfl⟩

/-- C4 (amended). A successful `newRoom(n)` stores the received name
`n` exactly, untrimmed; what is preserved is that every room name is
non-empty after trimming and that exact names stay pairwise distinct
(uniqueness holds for raw names, not for trimmed names). -/
theorem newRoom_stores_received_name (st : ServerState) (sid : Nat)
    (sock : Socket) (n : String)
    (hs : st.sockets.find? (fun s => s.sid == sid) = some sock)
    (hn : jsTrim n ≠ "")
    (hex : st.rooms.any (fun r => r.name == n) = false) :
    handleEvent st sid (.newRoom (.str n)) =
      .ok ({ st with rooms := st.rooms ++ [⟨n, sock.username⟩] },
           [.toAll (.roomList (sortRooms (st.rooms ++ [⟨n, sock.username⟩])))]) ∧
    ((∀ r ∈ st.rooms, jsTrim r.name ≠ "") →
      ∀ r ∈ st.rooms ++ [(⟨n, sock.username⟩ : Room)], jsTrim r.name ≠ "") ∧
    ((st.rooms.map Room.name).Nodup →
      ((st.rooms ++ [(⟨n, sock.username⟩ : Room)]).map Room.name).Nodup) := by
  refine ⟨?_, ?_, ?_⟩
  · simp [handleEvent, hs, hn, hex]
  · intro h r hr
    rcases List.mem_append.mp hr with hr | hr
    · exact h r hr
    · rcases List.mem_singleton.mp hr with rfl
      exact hn
  · intro h
    rw [List.map_append, List.nodup_append]
    refine ⟨h, List.nodup_singleton _, ?_⟩
    intro x hx hmem
    rcases List.mem_singleton.mp hmem with rfl
    obtain ⟨r, hr, hrn⟩ := List.mem_map.mp hx
    have := List.any_eq_false.mp hex r hr
    simp only [beq_iff_eq] at this
    exact this hrn

/-- C4 (amended) witness: creating `"general"` at the base state stores
exactly that name and preserves both invariants. -/
theorem newRoom_stores_received_name_witness :
    handleEvent baseState 0 (.newRoom (.str "general")) =
      .ok ({ baseState with rooms := [⟨"general", "alice"⟩] },
           [.toAll (.roomList (sortRooms [⟨"general", "alice"⟩]))]) ∧
    ((∀ r ∈ baseState.rooms, jsTrim r.name ≠ "") →
      ∀ r ∈ baseState.rooms ++ [(⟨"general", "alice"⟩ : Room)], jsTrim r.name ≠ "") ∧
    ((baseState.rooms.map Room.name).Nodup →
      ((baseState.rooms ++ [(⟨"general", "alice"⟩ : Room)]).map Room.name).Nodup) :=
  newRoom_stores_received_name baseState 0 aliceSock "general" (by decide)
    (by decide) (by decide)

/-- C5. Marking a message seen is idempotent: with the viewer absent
from `seenBy`, the first `seen` appends the viewer once and broadcasts
one `seenUpdate`; the second application leaves the state unchanged and
emits nothing, and the viewer occurs exactly once in the stored set. -/
theorem seen_idempotent (st : ServerState) (sid : Nat) (sock : Socket)
    (i : String) (m : Message)
    (hs : st.sockets.find? (fun s => s.sid == sid) = some sock)
    (hm : findMessageById st.messages (.str i) = some m)
    (hnew : m.seenBy.count sock.username = 0) :
    handleEvent st sid (.seen (some ⟨.str i⟩)) =
      .ok (seenState st m sock.username,
           [.toRoom m.room (.seenUpdate m.id (m.seenBy ++ [sock.username]))]) ∧
    handleEvent (seenState st m sock.username) sid (.seen (some ⟨.str i⟩)) =
      .ok (seenState st m sock.username, []) ∧
    ∀ m', findMessageById (seenState st m sock.username).messages (.str i) =
        some m' → m'.seenBy.count sock.username = 1 := by
  have hnotin : sock.username ∉ m.seenBy := List.count_eq_zero.mp hnew
  have hfind2 : findMessageById (seenState st m sock.username).messages (.str i) =
      some { m with seenBy := m.seenBy ++ [sock.username] } := by
    simp only [findMessageById, seenState]
    exact findMessageById_update st.messages i m _ (by simpa [findMessageById] using hm) rfl
  refine ⟨?_, ?_, ?_⟩
  · simp [handleEvent, hs, hm, hnotin, seenState]
  · have hs2 : (seenState st m sock.username).sockets.find?
        (fun s => s.sid == sid) = some sock := hs
    refine seen_already_noop _ sid sock (.str i) hs2 ?_
    intro m' hm'
    rw [hfind2] at hm'
    cases hm'
    simp
  · intro m' hm'
    rw [hfind2] at hm'
    cases hm'
    simp [List.count_append, hnew]

/-- C5 witness: alice marks bob's message seen twice at a concrete state. -/
theorem seen_idempotent_witness :
    handleEvent bobMsgState 0 (.seen (some ⟨.str "1"⟩)) =
      .ok (seenState bobMsgState ⟨"1", "g", "bob", none, "hi", 0, []⟩ "alice",
           [.toRoom "g" (.seenUpdate "1" ["alice"])]) ∧
    handleEvent (seenState bobMsgState ⟨"1", "g", "bob", none, "hi", 0, []⟩ "alice")
        0 (.seen (some ⟨.str "1"⟩)) =
      .ok (seenState bobMsgState ⟨"1", "g", "bob", none, "hi", 0, []⟩ "alice", []) ∧
    ∀ m', findMessageById
        (seenState bobMsgState ⟨"1", "g", "bob", none, "hi", 0, []⟩ "alice").messages
        (.str "1") = some m' → m'.seenBy.count "alice" = 1 :=
  seen_idempotent bobMsgState 0 aliceSock "1" ⟨"1", "g", "bob", none, "hi", 0, []⟩
    rfl rfl (by decide)

/-- C6. A `deleteMessage` from a connection whose username differs from
the message's author changes nothing and emits nothing; the message is
still present, with all fields intact. -/
theorem deleteMessage_nonauthor_noop (st : ServerState) (sid : Nat)
    (sock : Socket) (i : String) (m : Message)
    (hs : st.sockets.find? (fun s => s.sid == sid) = some sock)
    (hm : findMessageById st.messages (.str i) = some m)
    (hne : m.user ≠ sock.username) :
    handleEvent st sid (.deleteMessage (.str i)) = .ok (st, []) ∧
    m ∈ st.messages := by
  constructor
  · simp [handleEvent, hs, hm, hne]
  · exact List.mem_of_find?_eq_some (by simpa [findMessageById] using hm)

/-- C6 witness: alice cannot delete bob's message. -/
theorem deleteMessage_nonauthor_noop_witness :
    handleEvent bobMsgState 0 (.deleteMessage (.str "1")) = .ok (bobMsgState, []) ∧
    (⟨"1", "g", "bob", none, "hi", 0, []⟩ : Message) ∈ bobMsgState.messages :=
  deleteMessage_nonauthor_noop bobMsgState 0 aliceSock "1"
    ⟨"1", "g", "bob", none, "hi", 0, []⟩ rfl rfl (by decide)

/-- C7. A `typing` event with a non-empty room broadcasts the sender's
username to the room excluding the sender: the handler emits exactly one
room-scoped broadcast that skips the sender's socket id; the sender's
socket never receives it, and every other member socket does. -/
theorem typing_excludes_sender (st : ServerState) (sid : Nat) (sock : Socket)
    (r : String)
    (hs : st.sockets.find? (fun s => s.sid == sid) = some sock)
    (hr : r ≠ "") :
    handleEvent st sid (.typing (.str r)) =
      .ok (st, [.toRoomNotSender r sid (.typing sock.username)]) ∧
    (∀ s ∈ st.sockets, s.sid = sid →
      s.receives (.toRoomNotSender r sid (.typing sock.username)) = false) ∧
    (∀ s ∈ st.sockets, s.sid ≠ sid → s.rooms.contains (JsVal.str r) = true →
      s.receives (.toRoomNotSender r sid (.typing sock.username)) = true) := by
  refine ⟨?_, ?_, ?_⟩
  · simp [handleEvent, hs, hr]
  · intro s _ hsid
    simp [Socket.receives, hsid]
  · intro s _ hsid hc
    have hmem : JsVal.str r ∈ s.rooms := by simpa using hc
    simp [Socket.receives, hsid, hmem]

/-- C7 witness: alice types in `"g"`; bob (a member) receives the
broadcast, alice does not. -/
theorem typing_excludes_sender_witness :
    handleEvent typingState 0 (.typing (.str "g")) =
      .ok (typingState, [.toRoomNotSender "g" 0 (.typing "alice")]) ∧
    (∀ s ∈ typingState.sockets, s.sid = 0 →
      s.receives (.toRoomNotSender "g" 0 (.typing "alice")) = false) ∧
    (∀ s ∈ typingState.sockets, s.sid ≠ 0 →
      s.rooms.contains (JsVal.str "g") = true →
      s.receives (.toRoomNotSender "g" 0 (.typing "alice")) = true) :=
  typing_excludes_sender typingState 0 aliceInG "g" rfl (by decide)

/-- C8. When the room directory is empty, an authenticated room-list
request creates exactly one room, named `"lobby"`, attributed to the
requesting user, and the list rendered to that user is that non-empty
singleton. -/
theorem empty_directory_creates_lobby (st : ServerState) (username : String)
    (h : st.rooms = []) :
    (handleIndex st username).1.rooms = [⟨"lobby", username⟩] ∧
    (handleIndex st username).2 = [⟨"lobby", username⟩] ∧
    (handleIndex st username).2 ≠ [] := by
  simp [handleIndex, sortRooms, h]

/-- C8 witness: an empty directory and requester alice. -/
theorem empty_directory_creates_lobby_witness :
    (handleIndex baseState "alice").1.rooms = [⟨"lobby", "alice"⟩] ∧
    (handleIndex baseState "alice").2 = [⟨"lobby", "alice"⟩] ∧
    (handleIndex baseState "alice").2 ≠ [] :=
  empty_directory_creates_lobby baseState "alice" rfl

/-- C9 (code bug).  `deleteRoom` touches only the `rooms` collection —
messages, sockets and counters are untouched, exhibited by the
`{ st with rooms := _ }` shape of every reachable outcome — and the
recreating `newRoom` likewise; so the old messages are preserved
exactly as the claim says.  But the claim's consequence fails: the
subsequent `joinRoom` on the recreated room throws a `TypeError`
(socket.io v3+ has no `Socket#leaveAll`), so the preserved messages
are never replayed as history. -/
theorem deleteRoom_frame_joinRoom_throws (st : ServerState) (sid : Nat)
    (sock : Socket) (name : String)
    (hs : st.sockets.find? (fun s => s.sid == sid) = some sock) :
    ∃ rooms1 e1 rooms2 e2,
      handleEvent st sid (.deleteRoom (.str name)) =
        .ok ({ st with rooms := rooms1 }, e1) ∧
      handleEvent { st with rooms := rooms1 } sid (.newRoom (.str name)) =
        .ok ({ st with rooms := rooms2 }, e2) ∧
      handleEvent { st with rooms := rooms2 } sid (.joinRoom (.str name)) =
        .error .typeError := by
  have hjoin : ∀ rooms2 : List Room,
      handleEvent { st with rooms := rooms2 } sid (.joinRoom (.str name)) =
        .error .typeError := by
    intro rooms2
    simp [handleEvent, hs]
  have hnewR : ∀ rooms1 : List Room, ∃ rooms2 e2,
      handleEvent { st with rooms := rooms1 } sid (.newRoom (.str name)) =
        .ok ({ st with rooms := rooms2 }, e2) := by
    intro rooms1
    by_cases hc : (jsTrim name != "" && !(rooms1.any (fun r => r.name == name))) = true
    · refine ⟨rooms1 ++ [⟨name, sock.username⟩],
        [.toAll (.roomList (sortRooms (rooms1 ++ [⟨name, sock.username⟩])))], ?_⟩
      simp only [handleEvent, hs]
      rw [if_pos hc]
    · refine ⟨rooms1, [], ?_⟩
      simp only [handleEvent, hs]
      rw [if_neg hc]
  have hdel : ∃ rooms1 e1,
      handleEvent st sid (.deleteRoom (.str name)) =
        .ok ({ st with rooms := rooms1 }, e1) := by
    cases hfr : findRoomByName st.rooms (.str name) with
    | none => exact ⟨st.rooms, [], by simp [handleEvent, hs, hfr]⟩
    | some r =>
      by_cases hcb : (r.createdBy == sock.username) = true
      · refine ⟨st.rooms.eraseP (fun x => x == r),
          [.toAll (.roomList (sortRooms (st.rooms.eraseP (fun x => x == r))))], ?_⟩
        simp only [handleEvent, hs, hfr]
        rw [if_pos hcb]
      · refine ⟨st.rooms, [], ?_⟩
        simp only [handleEvent, hs, hfr]
        rw [if_neg hcb]
  obtain ⟨rooms1, e1, h1⟩ := hdel
  obtain ⟨rooms2, e2, h2⟩ := hnewR rooms1
  exact ⟨rooms1, e1, rooms2, e2, h1, h2, hjoin rooms2⟩

/-- C9 witness: alice deletes her room `"g"` (bob's old message stays
in the log), recreates it, and the concrete `joinRoom("g")` throws
instead of replaying that message as history. -/
theorem deleteRoom_frame_joinRoom_throws_witness :
    ∃ rooms1 e1 rooms2 e2,
      handleEvent frameState 0 (.deleteRoom (.str "g")) =
        .ok ({ frameState with rooms := rooms1 }, e1) ∧
      handleEvent { frameState with rooms := rooms1 } 0 (.newRoom (.str "g")) =
        .ok ({ frameState with rooms := rooms2 }, e2) ∧
      handleEvent { frameState with rooms := rooms2 } 0 (.joinRoom (.str "g")) =
        .error .typeError :=
  deleteRoom_frame_joinRoom_throws frameState 0 aliceSock "g" rfl

/-- C10. An accepted `chatMessage` stores and broadcasts the text
exactly as received: trimming is applied only to the emptiness check,
so persisted messages may keep surrounding whitespace. -/
theorem chatMessage_stores_untrimmed (st : ServerState) (sid : Nat)
    (sock : Socket) (r t : String)
    (hs : st.sockets.find? (fun s => s.sid == sid) = some sock)
    (hr : r ≠ "") (ht : jsTrim t ≠ "") :
    handleEvent st sid (.chatMessage (some ⟨.str r, .str t⟩)) =
      .ok ({ st with
             messages := st.messages ++ [mkMessage st sock r t]
             nextId := st.nextId + 1
             nextTime := st.nextTime + 1 },
           [.toRoom r (.message (mkMessage st sock r t))]) ∧
    (mkMessage st sock r t).text = t := by
  constructor
  · simp [handleEvent, hs, hr, ht]
  · rfl

/-- C10 witness: the text `"  hi  "` is stored with its whitespace. -/
theorem chatMessage_stores_untrimmed_witness :
    handleEvent baseState 0 (.chatMessage (some ⟨.str "g", .str "  hi  "⟩)) =
      .ok ({ baseState with
             messages := baseState.messages ++ [mkMessage baseState aliceSock "g" "  hi  "]
             nextId := baseState.nextId + 1
             nextTime := baseState.nextTime + 1 },
           [.toRoom "g" (.message (mkMessage baseState aliceSock "g" "  hi  "))]) ∧
    (mkMessage baseState aliceSock "g" "  hi  ").text = "  hi  " :=
  chatMessage_stores_untrimmed baseState 0 aliceSock "g" "  hi  " rfl
    (by decide) (by decide)

end LiveChat
